import Mathlib

/-!
Shallow embedding of the effect ledger of `angular-kit-effects`
(src/libs/effects/src/lib/effects.functional.ts and the `Effects` class in
src/unnamed/part_000, whose `run`/`runOnInstanceCleanUp`/`unregister`/`cleanUp`
bodies are line-for-line the same code).

Modelling conventions:
* rxjs `Subscription` objects live in a store `subs : List SubEntry`; a token is
  the index of an entry.  An entry carries its `closed` flag and what the
  subscription delivers (`SubKind`).
* the ledger's parent `sub = new Subscription()` is modelled by `rootClosed`
  plus the list `rootChildren` of tokens that were `sub.add`ed; `add` on a
  closed parent unsubscribes the child immediately, and `sub.unsubscribe()`
  closes every child (both are rxjs semantics).
* `destroyHook$$ = new ReplaySubject<void>(1)` is modelled by the flag
  `destroyFired` (the one-slot buffer) plus the `hookPipe` entries of the store
  (its subscribers); `next()` delivers to every open subscriber, and a
  subscriber arriving after `next()` gets the buffered notification replayed
  synchronously at subscribe time.
* observable sources are long-lived multicast subjects identified by a `Nat`;
  emissions and errors are environment events (`deliverEmit`, `deliverError`,
  `deliverEmitThrowOn`).
* side-effect functions, cleanup callbacks and error values are identified by
  numbers; invoking one is recorded as an `Action` in a trace, so claims about
  "the callback fires exactly once" become claims about traces.
-/

namespace AngularKitEffects

/-- Observable actions of a ledger run: a cleanup callback being invoked, a
per-emission side-effect function being invoked with a value, or
`errorHandler.handleError` being invoked. -/
inductive Action where
  | cleanUpCb (cb : Nat)
  | sideEffect (f : Nat) (v : Int)
  | handleError (e : Int)
deriving DecidableEq, Repr

/-- What a stored subscription delivers:
`adopted src` is an already-active external subscription (created by the caller,
e.g. `trigger$$.subscribe(...)`) that `run` merely adopts;
`effectPipe src f` is `o$.pipe(tap(f)?, catchError(...)).subscribe()` built by
the Observable branch of `run`;
`hookPipe cb` is `destroyHook$$.pipe(tap(sideEffectFn)).subscribe()` built by
`runOnInstanceDestroy`, where `cb = none` when the tapped closure
`() => (sideEffectFn as RunOptions).onCleanUp?.()` resolves to a no-op. -/
inductive SubKind where
  | adopted (src : Nat)
  | effectPipe (src : Nat) (sideEffect : Option Nat)
  | hookPipe (cb : Option Nat)
deriving DecidableEq, Repr

/-- One rxjs subscription in the store. -/
structure SubEntry where
  closed : Bool
  kind : SubKind
deriving DecidableEq, Repr

/-- State of one ledger created by `rxEffect` (effects.functional.ts lines
86-92): the optional injected `ErrorHandler`, the id counter `nextId`, the
parent `sub` (as `rootClosed`/`rootChildren`), the subscription store, the
`idSubMap`, and the `ReplaySubject(1)` buffer flag of `destroyHook$$`. -/
structure LedgerState where
  hasErrorHandler : Bool
  nextId : Nat
  rootClosed : Bool
  rootChildren : List Nat
  subs : List SubEntry
  idSubMap : List (Nat × Nat)
  destroyFired : Bool
deriving DecidableEq, Repr

/-- Map.get for the `idSubMap` association list. -/
def mapGet (m : List (Nat × Nat)) (k : Nat) : Option Nat :=
  (m.find? (fun p => p.1 == k)).map (·.2)

/-- Map.set for the `idSubMap` association list (overwrites an existing key,
appends otherwise, like a JS `Map`). -/
def mapSet (m : List (Nat × Nat)) (k v : Nat) : List (Nat × Nat) :=
  if m.any (fun p => p.1 == k) then
    m.map (fun p => if p.1 == k then (k, v) else p)
  else
    m ++ [(k, v)]

/-- Mark a subscription entry closed. -/
def setClosed (e : SubEntry) : SubEntry :=
  { e with closed := true }

/-- Close the entry at index `t` (no-op when out of range); this is one
`subscription.unsubscribe()` (idempotent in rxjs). -/
def closeAt (t : Nat) (l : List SubEntry) : List SubEntry :=
  match t, l with
  | _, [] => []
  | 0, e :: rest => setClosed e :: rest
  | Nat.succ n, e :: rest => e :: closeAt n rest

/-- Unsubscribe the subscription with token `t`. -/
def unsubscribeToken (t : Nat) (s : LedgerState) : LedgerState :=
  { s with subs := closeAt t s.subs }

/-- Model of `sub.add(child)` on the ledger's parent subscription: rxjs
unsubscribes the child immediately when the parent is already closed, otherwise
records it as a child. -/
def rootAdd (t : Nat) (s : LedgerState) : LedgerState :=
  if s.rootClosed then unsubscribeToken t s
  else { s with rootChildren := s.rootChildren ++ [t] }

/-- Model of `sub.unsubscribe()` on the ledger's parent subscription: closes the
parent and every child. -/
def rootUnsubscribe (s : LedgerState) : LedgerState :=
  { s with rootClosed := true,
           subs := s.rootChildren.foldl (fun l t => closeAt t l) s.subs }

/-- Actions produced when `destroyHook$$.next(void 0)` delivers to the open
`hookPipe` subscribers of the store. -/
def hookNextActs (l : List SubEntry) : List Action :=
  l.filterMap (fun e =>
    if e.closed then none
    else
      match e.kind with
      | .hookPipe (some cb) => some (Action.cleanUpCb cb)
      | _ => none)

/-- Model of `destroyHook$$.next(void 0)`: buffers the notification (the
subject has buffer size 1) and delivers it to every currently open subscriber;
delivery itself changes no ledger state. -/
def destroyHookNext (s : LedgerState) : LedgerState × List Action :=
  ({ s with destroyFired := true }, hookNextActs s.subs)

/-- Model of `destroyHook$$.pipe(tap(sideEffectFn)).subscribe()`: allocates a
new subscriber token; when the one-slot buffer already holds the end-of-life
notification, the `ReplaySubject` replays it synchronously at subscribe time,
so the tapped callback fires immediately. Returns the new state, the token and
the actions of the replay. -/
def destroyHookSubscribe (cb : Option Nat) (s : LedgerState) :
    LedgerState × Nat × List Action :=
  let t := s.subs.length
  let s1 := { s with subs := s.subs ++ [⟨false, SubKind.hookPipe cb⟩] }
  let acts :=
    if s.destroyFired then
      match cb with
      | some c => [Action.cleanUpCb c]
      | none => []
    else []
  (s1, t, acts)

/-- Translation of `unregister` (effects.functional.ts lines 98-103):
`const subscription = idSubMap.get(effectId); if (subscription)
subscription.unsubscribe();` — note that the entry is not deleted from the map. -/
def unregister (effectId : Nat) (s : LedgerState) : LedgerState :=
  match mapGet s.idSubMap effectId with
  | some t => unsubscribeToken t s
  | none => s

/-- First argument of `run`: either an already-active subscription (by token)
or a lazy observable source (by source id). -/
inductive ObsOrSub where
  | subscription (t : Nat)
  | observable (src : Nat)
deriving DecidableEq, Repr

/-- Second argument of `run` (`sideEffectFn?: ((arg: T) => void) | RunOptions`):
absent, a per-emission function, or a `RunOptions` object whose `onCleanUp`
property may itself be absent. -/
inductive SideEffectArg where
  | noArg
  | fn (f : Nat)
  | runOptions (onCleanUp : Option Nat)
deriving DecidableEq, Repr

/-- Third argument of `run` (`options?: RunOptions`). -/
structure RunOptionsArg where
  onCleanUp : Option Nat
deriving DecidableEq, Repr

/-- Translation of `isRunOptionsGuard` (effects.functional.ts lines 29-35):
`typeof obj === 'object' && obj?.onCleanUp !== undefined && typeof obj.onCleanUp
=== 'function'`; a function is not an object, and a `RunOptions` object without
`onCleanUp` fails the second conjunct. -/
def isRunOptionsGuard : SideEffectArg → Bool
  | .runOptions (some _) => true
  | _ => false

/-- Truth value of the JS expression `sideEffectFn ?? isRunOptionsGuard(sideEffectFn)`:
when `sideEffectFn` is defined the expression is `sideEffectFn` itself, which is
truthy for a function and for an object; when it is `undefined` the expression
falls through to `isRunOptionsGuard(undefined) = false`. -/
def sideEffectArgTruthy : SideEffectArg → Bool
  | .noArg => false
  | _ => true

/-- Actions of the JS call `(sideEffectFn as RunOptions).onCleanUp?.()`: invokes
the callback only when the argument is an object that actually carries one
(a function has no `onCleanUp` property, so the optional call is a no-op). -/
def onCleanUpCall : SideEffectArg → List Action
  | .runOptions (some cb) => [Action.cleanUpCb cb]
  | _ => []

/-- Value of the JS property access `(sideEffectFn as RunOptions).onCleanUp`. -/
def sideEffectOnCleanUp : SideEffectArg → Option Nat
  | .runOptions c => c
  | _ => none

/-- Value of `options.onCleanUp` behind the truthy check `options && options.onCleanUp`. -/
def optsOnCleanUp : Option RunOptionsArg → Option Nat
  | some o => o.onCleanUp
  | none => none

/-- Common prelude of adopting a subscription into the ledger — the body of the
`obsOrSub$ instanceof Subscription` branch of `run` before the hook check:
`const effectId = nextId++; sub.add(obsOrSub$); idSubMap.set(effectId, obsOrSub$)`.
It is factored out because `runOnInstanceDestroy` re-enters `run` through
exactly this branch with `sideEffectFn` undefined (the truthy guard is then
false, so the branch does nothing further). -/
def adoptSubscription (t : Nat) (s : LedgerState) : LedgerState × Nat :=
  let effectId := s.nextId
  let s1 := { s with nextId := effectId + 1 }
  let s2 := rootAdd t s1
  let s3 := { s2 with idSubMap := mapSet s2.idSubMap effectId t }
  (s3, effectId)

/-- Handle returned by `run`; it is the data captured by the returned `cleanUp`
closure.  The Subscription branch and the Observable branch of `run` return
closures with different bodies, hence two constructors.  `hook` is the captured
`runOnInstanceDestroySub` variable (itself a handle returned by the inner
`run(destroyHook$$....subscribe())` call). -/
inductive EffectCleanUpRef where
  | subBranch (effectId : Nat) (sideEffectArg : SideEffectArg)
      (hook : Option EffectCleanUpRef)
  | obsBranch (effectId : Nat) (sideEffectArg : SideEffectArg)
      (opts : Option RunOptionsArg) (hook : Option EffectCleanUpRef)

/-- Translation of `runOnInstanceDestroy` (effects.functional.ts lines 240-242):
`return run(destroyHook$$.pipe(tap(sideEffectFn)).subscribe());`.  The argument
is evaluated first (subscribing, which may synchronously replay the buffered
end-of-life notification), then the inner `run` call takes the Subscription
branch with `sideEffectFn` undefined, i.e. `adoptSubscription`. -/
def runOnInstanceDestroy (cb : Option Nat) (s : LedgerState) :
    LedgerState × EffectCleanUpRef × List Action :=
  let (s1, t, acts) := destroyHookSubscribe cb s
  let (s2, effectId) := adoptSubscription t s1
  (s2, .subBranch effectId .noArg none, acts)

/-- Translation of `run` (effects.functional.ts lines 165-234).  Returns the new
state, the handle (the data of the returned `cleanUp` closure) and the actions
performed during registration (a `ReplaySubject` replay can fire a hook
callback synchronously when registering after teardown). -/
def run (input : ObsOrSub) (arg : SideEffectArg) (opts : Option RunOptionsArg)
    (s : LedgerState) : LedgerState × EffectCleanUpRef × List Action :=
  match input with
  | .subscription t =>
    let (s1, effectId) := adoptSubscription t s
    if sideEffectArgTruthy arg then
      let (s2, href, acts) := runOnInstanceDestroy (sideEffectOnCleanUp arg) s1
      (s2, .subBranch effectId arg (some href), acts)
    else
      (s1, .subBranch effectId arg none, [])
  | .observable src =>
    let effectId := s.nextId
    let s1 := { s with nextId := effectId + 1 }
    let t := s1.subs.length
    let tapF := match arg with | .fn f => some f | _ => none
    let s2 := { s1 with subs := s1.subs ++ [⟨false, SubKind.effectPipe src tapF⟩] }
    let s3 := rootAdd t s2
    let s4 := { s3 with idSubMap := mapSet s3.idSubMap effectId t }
    let (s5, href1, acts1) :=
      match optsOnCleanUp opts with
      | some cb =>
        let (s', h, a) := runOnInstanceDestroy (some cb) s4
        (s', some h, a)
      | none => (s4, none, [])
    let (s6, href2, acts2) :=
      if sideEffectArgTruthy arg && isRunOptionsGuard arg then
        let (s', h, a) := runOnInstanceDestroy (sideEffectOnCleanUp arg) s5
        (s', some h, a)
      else (s5, none, [])
    let href := match href2 with | some h => some h | none => href1
    (s6, .obsBranch effectId arg opts href, acts1 ++ acts2)

/-- Execution of a handle's `cleanUp` closure (effects.functional.ts lines
182-190 for the Subscription branch, lines 221-233 for the Observable branch).
Each call re-runs the captured conditionals — the closures carry no
"already ran" flag. -/
def execCleanUp : EffectCleanUpRef → LedgerState → LedgerState × List Action
  | .subBranch effectId arg hook, s =>
    if sideEffectArgTruthy arg then
      let acts := onCleanUpCall arg
      let (s1, hacts) :=
        match hook with
        | some h => execCleanUp h s
        | none => (s, [])
      (unregister effectId s1, acts ++ hacts)
    else
      (unregister effectId s, [])
  | .obsBranch effectId arg opts hook, s =>
    let (s1, acts1) :=
      match optsOnCleanUp opts with
      | some cb =>
        let (s', hacts) :=
          match hook with
          | some h => execCleanUp h s
          | none => (s, [])
        (s', Action.cleanUpCb cb :: hacts)
      | none => (s, [])
    let (s2, acts2) :=
      if sideEffectArgTruthy arg && isRunOptionsGuard arg then
        let (s', hacts) :=
          match hook with
          | some h => execCleanUp h s1
          | none => (s1, [])
        (s', onCleanUpCall arg ++ hacts)
      else (s1, [])
    (unregister effectId s2, acts1 ++ acts2)

/-- Translation of the ledger-level `cleanUp` (effects.functional.ts lines
245-248): `destroyHook$$.next(void 0); sub.unsubscribe();`. -/
def cleanUp (s : LedgerState) : LedgerState × List Action :=
  let (s1, acts) := destroyHookNext s
  (rootUnsubscribe s1, acts)

/-- Environment event: a registered lazy source `src` emits `v`.  Every open
`effectPipe` pipeline on that source delivers the value through its `tap`
(invoking the side-effect function when one was piped); delivery changes no
ledger state. -/
def deliverEmit (src : Nat) (v : Int) (s : LedgerState) :
    LedgerState × List Action :=
  (s, s.subs.filterMap (fun e =>
    if e.closed then none
    else
      match e.kind with
      | .effectPipe src' (some f) =>
        if src' == src then some (Action.sideEffect f v) else none
      | _ => none))

/-- Environment event: a registered lazy source `src` raises error `e`.  In
every open pipeline on that source the `catchError((err) => {
errorHandler?.handleError(err); return EMPTY; })` operator intercepts the
error, forwards it to the error handler when one is configured, and substitutes
`EMPTY`, which completes — closing the pipeline's subscription.  Nothing is
thrown to the ledger or to the caller of `run`. -/
def deliverError (src : Nat) (e : Int) (s : LedgerState) :
    LedgerState × List Action :=
  let acts := s.subs.filterMap (fun en =>
    if en.closed then none
    else
      match en.kind with
      | .effectPipe src' _ =>
        if src' == src then
          if s.hasErrorHandler then some (Action.handleError e) else none
        else none
      | _ => none)
  let subs' := s.subs.map (fun en =>
    if en.closed then en
    else
      match en.kind with
      | .effectPipe src' _ => if src' == src then setClosed en else en
      | _ => en)
  ({ s with subs := subs' }, acts)

/-- Environment event: source `src` emits `v` and the tapped side-effect
function `f` throws `err` while handling it.  In the pipeline that taps `f` the
function is invoked (and raises); `tap` forwards the exception down the
pipeline, where `catchError` intercepts it exactly as for a source error.
Pipelines of other registrations (tapping a different function) deliver the
value normally and stay open. -/
def deliverEmitThrowOn (src : Nat) (f : Nat) (v : Int) (err : Int)
    (s : LedgerState) : LedgerState × List Action :=
  let acts := s.subs.filterMap (fun en =>
    if en.closed then none
    else
      match en.kind with
      | .effectPipe src' (some f') =>
        if src' == src then some (Action.sideEffect f' v) else none
      | _ => none)
  let errActs := s.subs.filterMap (fun en =>
    if en.closed then none
    else
      match en.kind with
      | .effectPipe src' (some f') =>
        if src' == src && f' == f then
          if s.hasErrorHandler then some (Action.handleError err) else none
        else none
      | _ => none)
  let subs' := s.subs.map (fun en =>
    if en.closed then en
    else
      match en.kind with
      | .effectPipe src' (some f') =>
        if src' == src && f' == f then setClosed en else en
      | _ => en)
  ({ s with subs := subs' }, acts ++ errActs)

/-- Fresh ledger as built by `rxEffect` (effects.functional.ts lines 89-92):
`nextId = 0`, an open parent subscription with no children, an empty
`idSubMap`, and an unfired `destroyHook$$`. -/
def initialLedger (hasErrorHandler : Bool) : LedgerState :=
  { hasErrorHandler := hasErrorHandler, nextId := 0, rootClosed := false,
    rootChildren := [], subs := [], idSubMap := [], destroyFired := false }

/-- Creation of an already-active external subscription by the caller (e.g.
`trigger$$.subscribe(...)` in the tests) before handing it to `run`; its
internal callback runs outside the ledger. -/
def newExternalSub (src : Nat) (s : LedgerState) : LedgerState × Nat :=
  ({ s with subs := s.subs ++ [⟨false, SubKind.adopted src⟩] }, s.subs.length)

/-- Events driving a one-registration scenario: a call of the returned handle's
`cleanUp()` or a ledger-level `cleanUp()`. -/
inductive CleanUpEv where
  | handle
  | ledger
deriving DecidableEq, Repr

/-- Whether an event is a handle-level `cleanUp()` call. -/
def isHandle : CleanUpEv → Bool
  | .handle => true
  | .ledger => false

/-- Run a sequence of events through a step function, concatenating the action
traces. -/
def runEvents (step : LedgerState → CleanUpEv → LedgerState × List Action)
    (s : LedgerState) : List CleanUpEv → LedgerState × List Action
  | [] => (s, [])
  | e :: rest =>
    let (s1, a1) := step s e
    let (s2, a2) := runEvents step s1 rest
    (s2, a1 ++ a2)

/-- Scenario "observable with options": one lazy source (id 0) registered on a
fresh ledger with per-emission side effect (function id 10) and
`{ onCleanUp }` options (callback id 7) — the registration shape of Scenario B
of the spec. -/
def obsOptsSetup : LedgerState × EffectCleanUpRef × List Action :=
  run (.observable 0) (.fn 10) (some ⟨some 7⟩) (initialLedger false)

/-- Ledger state right after the observable-with-options registration. -/
def obsOptsInit : LedgerState := obsOptsSetup.1

/-- Handle returned by the observable-with-options registration. -/
def obsOptsRef : EffectCleanUpRef := obsOptsSetup.2.1

/-- Step function of the observable-with-options scenario. -/
def obsOptsStep (s : LedgerState) : CleanUpEv → LedgerState × List Action
  | .handle => execCleanUp obsOptsRef s
  | .ledger => cleanUp s

/-- Closed form of the states reachable in the observable-with-options
scenario: the closed flags of the effect pipeline (token 0) and of the hook
pipeline (token 1), the root subscription's closed flag, and the
`ReplaySubject` buffer flag. -/
def obsOptsState (c0 c1 rc df : Bool) : LedgerState :=
  { hasErrorHandler := false, nextId := 2, rootClosed := rc,
    rootChildren := [0, 1],
    subs := [⟨c0, SubKind.effectPipe 0 (some 10)⟩, ⟨c1, SubKind.hookPipe (some 7)⟩],
    idSubMap := [(0, 0), (1, 1)], destroyFired := df }

/-- Scenario "adopted subscription with options-shaped second argument": an
already-active external subscription to source 1 is registered with a
`RunOptions` object (callback id 9) in the `sideEffect` argument position. -/
def subOptsSetup : LedgerState × EffectCleanUpRef × List Action :=
  let (s, t) := newExternalSub 1 (initialLedger false)
  run (.subscription t) (.runOptions (some 9)) none s

/-- Ledger state right after the adopted-subscription-with-options registration. -/
def subOptsInit : LedgerState := subOptsSetup.1

/-- Handle returned by the adopted-subscription-with-options registration. -/
def subOptsRef : EffectCleanUpRef := subOptsSetup.2.1

/-- Step function of the adopted-subscription-with-options scenario. -/
def subOptsStep (s : LedgerState) : CleanUpEv → LedgerState × List Action
  | .handle => execCleanUp subOptsRef s
  | .ledger => cleanUp s

/-- Scenario "adopted subscription with a plain function second argument": an
already-active external subscription to source 1 is registered with a plain
function (id 5) in the `sideEffect` argument position. -/
def subFnSetup : LedgerState × EffectCleanUpRef × List Action :=
  let (s, t) := newExternalSub 1 (initialLedger false)
  run (.subscription t) (.fn 5) none s

/-- Ledger state right after the adopted-subscription-with-function registration. -/
def subFnInit : LedgerState := subFnSetup.1

/-- Handle returned by the adopted-subscription-with-function registration. -/
def subFnRef : EffectCleanUpRef := subFnSetup.2.1

/-- Scenario C of the spec: two independent lazy sources 0 and 1 registered
with side-effect functions 10 and 11; the parameter says whether an
`ErrorHandler` is configured. -/
def twoSourcesInit (h : Bool) : LedgerState :=
  (run (.observable 1) (.fn 11) none
    (run (.observable 0) (.fn 10) none (initialLedger h)).1).1

/-- Identifier carried by a handle (the `effectId` captured by its `cleanUp`
closure). -/
def refId : EffectCleanUpRef → Nat
  | .subBranch i _ _ => i
  | .obsBranch i _ _ _ => i

/-- One registration request: the three arguments of a `run` call. -/
structure RunReq where
  input : ObsOrSub
  arg : SideEffectArg
  opts : Option RunOptionsArg

/-- Process a list of registration requests in order, collecting the ids of
the returned handles. -/
def runAll (s : LedgerState) : List RunReq → LedgerState × List Nat
  | [] => (s, [])
  | r :: rest =>
    let (s1, ref, _) := run r.input r.arg r.opts s
    let (s2, ids) := runAll s1 rest
    (s2, refId ref :: ids)

/-- Call the ledger-level `cleanUp` `n` times in a row, concatenating the
action traces. -/
def cleanUpN : Nat → LedgerState → LedgerState × List Action
  | 0, s => (s, [])
  | n + 1, s =>
    let (s1, a1) := cleanUp s
    let (s2, a2) := cleanUpN n s1
    (s2, a1 ++ a2)

/-- Every subscription of the store is closed. -/
def allClosedB (l : List SubEntry) : Bool := l.all (·.closed)

/-- Ownership invariant of reachable ledgers: every stored subscription is
either already closed or a child of the ledger's parent subscription (every
subscription `run` creates or adopts is `sub.add`ed). -/
def subsOwnedB (s : LedgerState) : Bool :=
  (List.range s.subs.length).all (fun i =>
    (((s.subs.get? i).map (·.closed)).getD true) || decide (i ∈ s.rootChildren))

/-- Number of invocations of cleanup callback `cb` recorded in a trace. -/
def countCb (cb : Nat) (acts : List Action) : Nat :=
  acts.countP (fun a => a == Action.cleanUpCb cb)

/-- Opaque dependency-resolution context handle. -/
abbrev Injector := Nat

/-- Failure of ledger construction. -/
inductive InjectionError where
  | noInjectionContext
deriving DecidableEq, Repr

/-- Modelled from the spec: `assertInjector`, imported by effects.functional.ts
from './assert-injector', whose source file is not included under src/.  Per
section 7 of the spec, it yields the explicitly supplied
dependency-resolution context when one is given, falls back to the ambient
one, and fails immediately when neither exists. -/
def assertInjector (explicit : Option Injector) (ambient : Option Injector) :
    Except InjectionError Injector :=
  match explicit with
  | some i => .ok i
  | none =>
    match ambient with
    | some i => .ok i
    | none => .error .noInjectionContext

/-- Construction prologue of `rxEffect` (effects.functional.ts lines 83-92),
which also covers the spec's convenience single-source entry point (whose
injector derivation has the same explicit-or-ambient shape): assert the
injector before anything else — failing the whole call, before any
subscription is made, when neither an explicit nor an ambient context exists —
then inject the optional `ErrorHandler` (absence is valid and does not fail)
and build the fresh ledger. -/
def rxEffectConstruct (explicitInjector ambient : Option Injector)
    (hasErrorHandler : Bool) : Except InjectionError LedgerState :=
  match assertInjector explicitInjector ambient with
  | .error e => .error e
  | .ok _ => .ok (initialLedger hasErrorHandler)

/-! Helper lemmas about the observable-with-options scenario. -/

theorem obsOptsInit_eq : obsOptsInit = obsOptsState false false false false := by
  decide

theorem obsOptsStep_handle (c0 c1 rc df : Bool) :
    obsOptsStep (obsOptsState c0 c1 rc df) CleanUpEv.handle =
      (obsOptsState true true rc df, [Action.cleanUpCb 7]) := by
  cases c0 <;> cases c1 <;> cases rc <;> cases df <;> decide

theorem obsOptsStep_ledger (c0 c1 rc df : Bool) :
    obsOptsStep (obsOptsState c0 c1 rc df) CleanUpEv.ledger =
      (obsOptsState true true true true,
        if c1 then [] else [Action.cleanUpCb 7]) := by
  cases c0 <;> cases c1 <;> cases rc <;> cases df <;> decide

theorem obsOpts_closed_count (evs : List CleanUpEv) : ∀ rc df : Bool,
    countCb 7 ((runEvents obsOptsStep (obsOptsState true true rc df) evs).2) =
      evs.countP isHandle := by
  induction evs with
  | nil => intro rc df; rfl
  | cons e rest ih =>
    intro rc df
    cases e with
    | handle =>
      simp only [runEvents, obsOptsStep_handle, countCb, List.countP_append,
        List.countP_cons, List.countP_nil, isHandle]
      have := ih rc df
      simp only [countCb] at this
      simp [this]
      omega
    | ledger =>
      simp only [runEvents, obsOptsStep_ledger, if_pos rfl, countCb,
        List.countP_append, List.countP_cons, List.countP_nil, isHandle]
      have := ih true true
      simp only [countCb] at this
      simp [this]

/-- C1: the claim says the `onCleanUp` callback fires exactly once across any
sequence of handle-level and ledger-level `cleanUp()` calls, and in particular
that calling the handle's `cleanUp()` twice invokes it only once.  This is
false on the code: the returned `cleanUp` closure has no "already ran" flag, so
the second handle-level call re-runs `options.onCleanUp?.()`.  Concretely, for
a source registered with `{ onCleanUp }` options, the event sequence
[handle cleanUp, handle cleanUp] invokes the callback twice, not once. -/
theorem C1_counterexample :
    countCb 7 ((runEvents obsOptsStep obsOptsInit
        [CleanUpEv.handle, CleanUpEv.handle]).2) = 2 ∧
    countCb 7 ((runEvents obsOptsStep obsOptsInit
        [CleanUpEv.handle, CleanUpEv.handle]).2) ≠ 1 := by
  decide

/-- C1 (amended): for a registration created with an `onCleanUp` callback, the
first cleanup call — whether the handle's `cleanUp()` or the ledger-level
`cleanUp()` — invokes the callback exactly once; thereafter every further
handle-level `cleanUp()` call invokes it once more, while further ledger-level
`cleanUp()` calls never re-invoke it.  So the total number of invocations
across a sequence of calls is 1 plus the number of handle-level calls after
the first call; it is exactly one only when the handle's `cleanUp()` is called
at most once, and a second handle-level call re-invokes the callback. -/
theorem C1_amended :
    countCb 7 ((runEvents obsOptsStep obsOptsInit ([] : List CleanUpEv)).2) = 0 ∧
    ∀ (e : CleanUpEv) (rest : List CleanUpEv),
      countCb 7 ((runEvents obsOptsStep obsOptsInit (e :: rest)).2) =
        1 + rest.countP isHandle := by
  refine ⟨rfl, fun e rest => ?_⟩
  rw [obsOptsInit_eq]
  cases e with
  | handle =>
    simp only [runEvents, obsOptsStep_handle, countCb, List.countP_append,
      List.countP_cons, List.countP_nil]
    have := obsOpts_closed_count rest false false
    simp only [countCb] at this
    simp [this]
  | ledger =>
    simp only [runEvents, obsOptsStep_ledger, countCb,
      List.countP_append, List.countP_cons, List.countP_nil]
    have := obsOpts_closed_count rest true true
    simp only [countCb] at this
    simp [this]

theorem countP_isHandle_replicate (n : Nat) :
    (List.replicate n CleanUpEv.ledger).countP isHandle = 0 := by
  induction n with
  | zero => rfl
  | succ n ih => simp [List.replicate_succ, List.countP_cons, ih, isHandle]

/-- C6: cancelling a registration's handle removes it from further
consideration — after the handle's `cleanUp()` has run (which unsubscribes the
registration's hook on the end-of-life signal), any number of later
ledger-level `cleanUp()` calls never invoke that registration's `onCleanUp`
callback again; the total stays at the single invocation made by the handle
call.  Shown for the Observable branch of `run` (a lazy source registered with
`{ onCleanUp }` options, quantified over the number of later ledger teardowns)
and for the Subscription branch (an adopted subscription with an
options-shaped second argument, one and two later ledger teardowns). -/
theorem C6_individual_cancel_before_teardown :
    (∀ n : Nat, countCb 7 ((runEvents obsOptsStep obsOptsInit
        (CleanUpEv.handle :: List.replicate n CleanUpEv.ledger)).2) = 1) ∧
    countCb 9 ((runEvents subOptsStep subOptsInit
        [CleanUpEv.handle, CleanUpEv.ledger]).2) = 1 ∧
    countCb 9 ((runEvents subOptsStep subOptsInit
        [CleanUpEv.handle, CleanUpEv.ledger, CleanUpEv.ledger]).2) = 1 := by
  refine ⟨fun n => ?_, by decide, by decide⟩
  rw [obsOptsInit_eq]
  simp only [runEvents, obsOptsStep_handle, countCb, List.countP_append,
    List.countP_cons, List.countP_nil]
  have := obsOpts_closed_count (List.replicate n CleanUpEv.ledger) false false
  simp only [countCb] at this
  simp [this, countP_isHandle_replicate]

/-- C7: when `run` is called with an already-active subscription and an
`onCleanUp`-shaped options object in the `sideEffect` argument position, that
object's `onCleanUp` is treated as the cleanup callback — invoked by the
handle's `cleanUp()` and hooked to the end-of-life signal (invoked by a
ledger-level `cleanUp()`) — and never as a per-emission handler (emissions of
the adopted subscription's source invoke nothing in the ledger); and when a
plain function is passed in that position for an already-active subscription
it is never invoked, neither per emission nor at teardown. -/
theorem C7_subscription_branch_side_arg (v w : Int) :
    (execCleanUp subOptsRef subOptsInit).2 = [Action.cleanUpCb 9] ∧
    (cleanUp subOptsInit).2 = [Action.cleanUpCb 9] ∧
    (deliverEmit 1 v subOptsInit).2 = [] ∧
    (deliverEmit 1 w subFnInit).2 = [] ∧
    (cleanUp subFnInit).2 = [] ∧
    (execCleanUp subFnRef subFnInit).2 = [] :=
  ⟨rfl, rfl, rfl, rfl, rfl, rfl⟩

/-- C5: when a registered lazy source raises an error (or its side-effect
callback throws during emission delivery), the `catchError` branch of `run`
intercepts it: the error is forwarded to the error handler exactly once when
one is configured and not at all when none is, the failing pipeline's
subscription terminates (closes) quietly, and the other registration keeps
receiving its own emissions.  With sources 0 and 1 registered with side
effects 10 and 11: a source error on 0 produces exactly one `handleError`, it
closes pipeline 0 and leaves pipeline 1 open and still delivering; a throwing
side-effect callback on source 0 behaves the same after the callback's
invocation.  Delivery is a total function of the ledger state — nothing
propagates to the caller of `run`. -/
theorem C5_error_isolation (e v w : Int) :
    (deliverError 0 e (twoSourcesInit true)).2 = [Action.handleError e] ∧
    (((deliverError 0 e (twoSourcesInit true)).1).subs.get? 0).map (·.closed) =
      some true ∧
    (((deliverError 0 e (twoSourcesInit true)).1).subs.get? 1).map (·.closed) =
      some false ∧
    (deliverEmit 1 v (deliverError 0 e (twoSourcesInit true)).1).2 =
      [Action.sideEffect 11 v] ∧
    (deliverError 0 e (twoSourcesInit false)).2 = [] ∧
    (deliverEmitThrowOn 0 10 v e (twoSourcesInit true)).2 =
      [Action.sideEffect 10 v, Action.handleError e] ∧
    (deliverEmit 1 w (deliverEmitThrowOn 0 10 v e (twoSourcesInit true)).1).2 =
      [Action.sideEffect 11 w] :=
  ⟨rfl, rfl, rfl, rfl, rfl, rfl, rfl⟩

/-- C8: creating a ledger (or using the convenience single-source entry point)
without an ambient dependency-resolution context and without an explicitly
supplied one fails immediately at the call — the construction returns the
error before any ledger exists, and a fresh ledger starts with no
subscriptions, so no subscription occurs before the failure — while either an
explicit or an ambient context suffices, and the absence of an error reporter
(`hasErrorHandler = false`) is valid and never fails. -/
theorem C8_construction_failure :
    (∀ h : Bool, rxEffectConstruct none none h =
      Except.error InjectionError.noInjectionContext) ∧
    (∀ (i : Injector) (h : Bool),
      rxEffectConstruct (some i) none h = Except.ok (initialLedger h)) ∧
    (∀ (i : Injector) (h : Bool),
      rxEffectConstruct none (some i) h = Except.ok (initialLedger h)) ∧
    (∀ h : Bool, (initialLedger h).subs = []) :=
  ⟨fun _ => rfl, fun _ _ => rfl, fun _ _ => rfl, fun _ => rfl⟩

/-! Helper lemmas about unsubscription and the subscription store. -/

theorem setClosed_of_closed (e : SubEntry) (h : e.closed = true) :
    setClosed e = e := by
  cases e with
  | mk c k =>
    simp only [setClosed]
    simp only at h
    rw [h]

theorem closeAt_closeAt (l : List SubEntry) : ∀ t : Nat,
    closeAt t (closeAt t l) = closeAt t l := by
  induction l with
  | nil => intro t; cases t <;> rfl
  | cons e rest ih =>
    intro t
    cases t with
    | zero => rfl
    | succ n => simp [closeAt, ih n]

theorem unregister_idSubMap (s : LedgerState) (eid : Nat) :
    (unregister eid s).idSubMap = s.idSubMap := by
  cases hm : mapGet s.idSubMap eid <;>
    simp [unregister, hm, unsubscribeToken]

theorem unregister_unregister (s : LedgerState) (eid : Nat) :
    unregister eid (unregister eid s) = unregister eid s := by
  cases hm : mapGet s.idSubMap eid with
  | none => simp [unregister, hm]
  | some t =>
    have h1 : unregister eid s = { s with subs := closeAt t s.subs } := by
      simp [unregister, hm, unsubscribeToken]
    have h2 : mapGet ({ s with subs := closeAt t s.subs } :
        LedgerState).idSubMap eid = some t := hm
    rw [h1]
    simp [unregister, h2, unsubscribeToken, closeAt_closeAt]

/-- C3 (counterexample): the claim says that on the first `cleanUp()` /
`unregister` of a registration its entry is removed from the ledger's
id-to-subscription mapping, leaving no stale entries.  This is false on the
code: `unregister` only calls `subscription.unsubscribe()` and never deletes
the entry from `idSubMap`.  Concretely, after the handle-level `cleanUp()` of
the observable-with-options registration, id 0 still maps to token 0 while
that token's subscription is already cancelled — a stale entry. -/
theorem C3_counterexample :
    mapGet ((runEvents obsOptsStep obsOptsInit
        [CleanUpEv.handle]).1).idSubMap 0 = some 0 ∧
    ((((runEvents obsOptsStep obsOptsInit
        [CleanUpEv.handle]).1).subs.get? 0).map (·.closed)) = some true := by
  decide

/-- C3 (amended): entries are never removed from the id-to-subscription
mapping: the first `cleanUp()`/`unregister` of a registration cancels its
subscription but leaves its entry in the mapping, so the mapping may retain
ids of already-cancelled subscriptions.  What does hold of `unregister`:
cancelling an unknown id is a no-op returning the ledger unchanged, the
mapping itself is never mutated by `unregister`, and cancelling an
already-cancelled id is a no-op (repeating `unregister` changes nothing) —
never an error. -/
theorem C3_amended :
    (∀ (s : LedgerState) (eid : Nat),
      mapGet s.idSubMap eid = none → unregister eid s = s) ∧
    (∀ (s : LedgerState) (eid k : Nat),
      mapGet (unregister eid s).idSubMap k = mapGet s.idSubMap k) ∧
    (∀ (s : LedgerState) (eid : Nat),
      unregister eid (unregister eid s) = unregister eid s) := by
  refine ⟨fun s eid h => ?_, fun s eid k => ?_,
    fun s eid => unregister_unregister s eid⟩
  · simp [unregister, h]
  · rw [unregister_idSubMap]

theorem C3_amended_witness :
    (mapGet (initialLedger false).idSubMap 5 = none ∧
      unregister 5 (initialLedger false) = initialLedger false) ∧
    mapGet (unregister 0 obsOptsInit).idSubMap 0 =
      mapGet obsOptsInit.idSubMap 0 ∧
    unregister 0 (unregister 0 obsOptsInit) = unregister 0 obsOptsInit :=
  ⟨⟨by decide, C3_amended.1 (initialLedger false) 5 (by decide)⟩,
    C3_amended.2.1 obsOptsInit 0 0,
    C3_amended.2.2 obsOptsInit 0⟩

/-! Helper lemmas for ledger-level teardown: after `cleanUp`, every owned
subscription is closed. -/

theorem closeAt_get? (l : List SubEntry) : ∀ t i : Nat,
    (closeAt t l).get? i =
      if i = t then (l.get? i).map setClosed else l.get? i := by
  induction l with
  | nil =>
    intro t i
    cases t <;> simp [closeAt]
  | cons e rest ih =>
    intro t i
    cases t with
    | zero =>
      cases i with
      | zero => simp [closeAt]
      | succ j => simp [closeAt]
    | succ n =>
      cases i with
      | zero => simp [closeAt]
      | succ j =>
        simp only [closeAt, List.get?_cons_succ]
        rw [ih n j]
        by_cases h : j = n
        · rw [if_pos h, if_pos (by omega)]
        · rw [if_neg h, if_neg (by omega)]

theorem map_setClosed_idem (x : Option SubEntry) :
    (x.map setClosed).map setClosed = x.map setClosed := by
  cases x <;> rfl

theorem foldl_closeAt_get? (ts : List Nat) : ∀ (l : List SubEntry) (i : Nat),
    (ts.foldl (fun acc t => closeAt t acc) l).get? i =
      if i ∈ ts then (l.get? i).map setClosed else l.get? i := by
  induction ts with
  | nil =>
    intro l i
    simp
  | cons t ts ih =>
    intro l i
    simp only [List.foldl_cons]
    rw [ih]
    by_cases hts : i ∈ ts
    · rw [if_pos hts, if_pos (List.mem_cons.mpr (Or.inr hts)), closeAt_get?]
      by_cases ht : i = t
      · rw [if_pos ht, map_setClosed_idem]
      · rw [if_neg ht]
    · rw [if_neg hts, closeAt_get?]
      by_cases ht : i = t
      · rw [if_pos ht, if_pos (List.mem_cons.mpr (Or.inl ht))]
      · rw [if_neg ht, if_neg (by simp [List.mem_cons, ht, hts])]

theorem allClosedB_iff (l : List SubEntry) :
    allClosedB l = true ↔ ∀ i e, l.get? i = some e → e.closed = true := by
  unfold allClosedB
  rw [List.all_eq_true]
  constructor
  · intro h i e hget
    exact h e (List.get?_mem hget)
  · intro h x hx
    obtain ⟨n, hn⟩ := List.mem_iff_get?.mp hx
    exact h n x hn

theorem subsOwned_spec (s : LedgerState) (h : subsOwnedB s = true) :
    ∀ i e, s.subs.get? i = some e → e.closed = true ∨ i ∈ s.rootChildren := by
  intro i e hget
  have hi : i < s.subs.length := by
    by_contra hlt
    rw [List.get?_len_le (Nat.le_of_not_lt hlt)] at hget
    exact Option.noConfusion hget
  have hall := List.all_eq_true.mp h i (List.mem_range.mpr hi)
  rw [hget] at hall
  simp only [Option.map_some', Option.getD_some, Bool.or_eq_true,
    decide_eq_true_eq] at hall
  exact hall

theorem cleanUp_state (s : LedgerState) :
    (cleanUp s).1 =
      { s with rootClosed := true, destroyFired := true,
               subs := s.rootChildren.foldl (fun l t => closeAt t l) s.subs } :=
  rfl

theorem cleanUp_allClosed (s : LedgerState) (h : subsOwnedB s = true) :
    allClosedB ((cleanUp s).1).subs = true := by
  rw [cleanUp_state, allClosedB_iff]
  intro i e hget
  simp only at hget
  rw [foldl_closeAt_get?] at hget
  by_cases hm : i ∈ s.rootChildren
  · rw [if_pos hm] at hget
    cases hg : s.subs.get? i with
    | none => rw [hg] at hget; exact Option.noConfusion hget
    | some e0 =>
      rw [hg, Option.map_some'] at hget
      cases hget
      rfl
  · rw [if_neg hm] at hget
    rcases subsOwned_spec s h i e hget with hc | hmem
    · exact hc
    · exact absurd hmem hm

theorem filterMap_closed_nil (g : SubEntry → Option Action) (l : List SubEntry)
    (h : allClosedB l = true) :
    l.filterMap (fun e => if e.closed then none else g e) = [] := by
  induction l with
  | nil => rfl
  | cons e rest ih =>
    have h1 : e.closed = true := by
      have := List.all_eq_true.mp h e (List.mem_cons_self _ _)
      exact this
    have h2 : allClosedB rest = true := by
      unfold allClosedB at h ⊢
      rw [List.all_cons, Bool.and_eq_true] at h
      exact h.2
    simp [List.filterMap_cons, h1, ih h2]

theorem closeAt_of_closed (l : List SubEntry) (hl : allClosedB l = true) :
    ∀ t : Nat, closeAt t l = l := by
  induction l with
  | nil => intro t; cases t <;> rfl
  | cons e rest ih =>
    have h1 : e.closed = true := List.all_eq_true.mp hl e (List.mem_cons_self _ _)
    have h2 : allClosedB rest = true := by
      unfold allClosedB at hl ⊢
      rw [List.all_cons, Bool.and_eq_true] at hl
      exact hl.2
    intro t
    cases t with
    | zero => simp [closeAt, setClosed_of_closed e h1]
    | succ n => simp [closeAt, ih h2 n]

theorem foldl_closeAt_of_closed (ts : List Nat) (l : List SubEntry)
    (hl : allClosedB l = true) :
    ts.foldl (fun acc t => closeAt t acc) l = l := by
  induction ts with
  | nil => rfl
  | cons t ts ih => simp [List.foldl_cons, closeAt_of_closed l hl t, ih]

theorem cleanUp_fixpoint (s1 : LedgerState) (hrc : s1.rootClosed = true)
    (hdf : s1.destroyFired = true) (hac : allClosedB s1.subs = true) :
    cleanUp s1 = (s1, []) := by
  have hacts : hookNextActs s1.subs = [] := by
    unfold hookNextActs
    exact filterMap_closed_nil _ _ hac
  have hpair : cleanUp s1 = ((cleanUp s1).1, hookNextActs s1.subs) := rfl
  have hst : (cleanUp s1).1 = s1 := by
    rw [cleanUp_state, foldl_closeAt_of_closed _ _ hac]
    cases s1
    simp only at hrc hdf
    simp [hrc, hdf]
  rw [hpair, hst, hacts]

/-- C2: calling the ledger-level `cleanUp()` two or more times has the
identical observable effect to calling it once — once the ledger's parent
subscription is closed and every owned subscription with it, a repeated
`cleanUp()` leaves the state exactly as it was and produces an empty action
trace: the end-of-life signal is re-fired into only closed subscribers, so no
already-notified listener is re-delivered to and no listener side effect runs
again (and, the embedding being total, nothing is thrown).  Stated both as a
fixpoint of the second call and as `cleanUpN (n+1) = cleanUpN 1` for every n.
The hypothesis is the ownership invariant of reachable ledgers: every stored
subscription was `sub.add`ed to the parent (or is already closed). -/
theorem C2_repeated_cleanUp (s : LedgerState) (h : subsOwnedB s = true) :
    cleanUp (cleanUp s).1 = ((cleanUp s).1, []) ∧
    ∀ n, cleanUpN (n + 1) s = cleanUpN 1 s := by
  have hfix : cleanUp (cleanUp s).1 = ((cleanUp s).1, []) :=
    cleanUp_fixpoint _ rfl rfl (cleanUp_allClosed s h)
  refine ⟨hfix, ?_⟩
  have hiter : ∀ n, cleanUpN n (cleanUp s).1 = ((cleanUp s).1, []) := by
    intro n
    induction n with
    | zero => rfl
    | succ m ih => simp [cleanUpN, hfix, ih]
  intro n
  have lhs : cleanUpN (n + 1) s =
      ((cleanUpN n (cleanUp s).1).1,
        (cleanUp s).2 ++ (cleanUpN n (cleanUp s).1).2) := rfl
  have rhs : cleanUpN 1 s =
      ((cleanUpN 0 (cleanUp s).1).1,
        (cleanUp s).2 ++ (cleanUpN 0 (cleanUp s).1).2) := rfl
  rw [lhs, rhs, hiter n]
  rfl

theorem C2_repeated_cleanUp_witness :
    subsOwnedB obsOptsInit = true ∧
    cleanUp (cleanUp obsOptsInit).1 = ((cleanUp obsOptsInit).1, []) :=
  ⟨by decide, (C2_repeated_cleanUp obsOptsInit (by decide)).1⟩

/-- C4: post-teardown silence — for every source registered before the
ledger-level `cleanUp()`, no emission produced after `cleanUp()` returns
invokes its side-effect callback: `cleanUp()` closes every owned subscription
before returning, so a subsequent emission of any source (quantified over all
source ids and values) delivers to no pipeline and produces no action.  The
hypothesis is the ownership invariant of reachable ledgers. -/
theorem C4_post_teardown_silence (s : LedgerState) (src : Nat) (v : Int)
    (h : subsOwnedB s = true) :
    (deliverEmit src v (cleanUp s).1).2 = [] := by
  have hac := cleanUp_allClosed s h
  unfold deliverEmit
  exact filterMap_closed_nil _ _ hac

theorem C4_post_teardown_silence_witness :
    subsOwnedB obsOptsInit = true ∧
    (deliverEmit 0 5 (cleanUp obsOptsInit).1).2 = [] :=
  ⟨by decide, C4_post_teardown_silence obsOptsInit 0 5 (by decide)⟩

/-! Helper lemmas about the id counter. -/

theorem rootAdd_nextId (t : Nat) (s : LedgerState) :
    (rootAdd t s).nextId = s.nextId := by
  unfold rootAdd
  split <;> rfl

theorem adoptSubscription_nextId (t : Nat) (s : LedgerState) :
    (adoptSubscription t s).1.nextId = s.nextId + 1 := by
  show (rootAdd t { s with nextId := s.nextId + 1 }).nextId = s.nextId + 1
  rw [rootAdd_nextId]

theorem adoptSubscription_id (t : Nat) (s : LedgerState) :
    (adoptSubscription t s).2 = s.nextId := rfl

theorem runOnInstanceDestroy_nextId (cb : Option Nat) (s : LedgerState) :
    (runOnInstanceDestroy cb s).1.nextId = s.nextId + 1 := by
  show (adoptSubscription (destroyHookSubscribe cb s).2.1
      (destroyHookSubscribe cb s).1).1.nextId = s.nextId + 1
  rw [adoptSubscription_nextId]
  rfl

theorem unregister_nextId (eid : Nat) (s : LedgerState) :
    (unregister eid s).nextId = s.nextId := by
  cases hm : mapGet s.idSubMap eid <;> simp [unregister, hm, unsubscribeToken]

theorem run_nextId_facts (input : ObsOrSub) (arg : SideEffectArg)
    (opts : Option RunOptionsArg) (s : LedgerState) :
    refId (run input arg opts s).2.1 = s.nextId ∧
    s.nextId < ((run input arg opts s).1).nextId := by
  cases input <;>
    rcases arg with _ | f | _ | cb <;>
      rcases opts with _ | ⟨_ | ocb⟩ <;>
        simp [run, adoptSubscription, runOnInstanceDestroy,
          destroyHookSubscribe, rootAdd, unsubscribeToken, refId,
          sideEffectArgTruthy, isRunOptionsGuard, optsOnCleanUp,
          sideEffectOnCleanUp, apply_ite] <;>
        omega

theorem runAll_facts (reqs : List RunReq) : ∀ s : LedgerState,
    List.Pairwise (· < ·) ((runAll s reqs).2) ∧
    (∀ i ∈ (runAll s reqs).2, s.nextId ≤ i ∧ i < ((runAll s reqs).1).nextId) ∧
    s.nextId ≤ ((runAll s reqs).1).nextId := by
  induction reqs with
  | nil =>
    intro s
    simp [runAll]
  | cons r rest ih =>
    intro s
    rcases hR : run r.input r.arg r.opts s with ⟨s1, ref, acts⟩
    have hfacts := run_nextId_facts r.input r.arg r.opts s
    rw [hR] at hfacts
    simp only at hfacts
    obtain ⟨hid, hlt⟩ := hfacts
    obtain ⟨hpw, hmem, hle⟩ := ih s1
    simp only [runAll, hR]
    refine ⟨?_, ?_, by omega⟩
    · rw [List.pairwise_cons]
      refine ⟨fun b hb => ?_, hpw⟩
      have := (hmem b hb).1
      omega
    · intro i hi
      rcases List.mem_cons.mp hi with h1 | h2
      · subst h1
        constructor
        · omega
        · have := hmem
          omega
      · have := hmem i h2
        constructor
        · omega
        · exact this.2

theorem execCleanUp_nextId : ∀ (ref : EffectCleanUpRef) (s : LedgerState),
    ((execCleanUp ref s).1).nextId = s.nextId
  | .subBranch eid arg none, s => by
    by_cases h : sideEffectArgTruthy arg = true <;>
      simp [execCleanUp, h, unregister_nextId]
  | .subBranch eid arg (some hk), s => by
    rcases hE : execCleanUp hk s with ⟨s1, hacts⟩
    have ih := execCleanUp_nextId hk s
    rw [hE] at ih
    simp only at ih
    by_cases h : sideEffectArgTruthy arg = true
    · simp [execCleanUp, h, hE, unregister_nextId, ih]
    · simp [execCleanUp, h, unregister_nextId]
  | .obsBranch eid arg opts none, s => by
    rcases arg with _ | f | _ | cb2 <;>
      cases hO : optsOnCleanUp opts <;>
        simp [execCleanUp, hO, unregister_nextId]
  | .obsBranch eid arg opts (some hk), s => by
    cases hO : optsOnCleanUp opts with
    | none =>
      rcases arg with _ | f | c
      · simp [execCleanUp, hO, unregister_nextId]
      · simp [execCleanUp, hO, unregister_nextId]
      · rcases c with _ | cb2
        · simp [execCleanUp, hO, unregister_nextId]
        · rcases hE : execCleanUp hk s with ⟨s2, hacts⟩
          have ih := execCleanUp_nextId hk s
          rw [hE] at ih
          simp only at ih
          simp [execCleanUp, hO, hE, unregister_nextId, ih]
    | some cb =>
      rcases hE : execCleanUp hk s with ⟨s1, hacts1⟩
      have ih1 := execCleanUp_nextId hk s
      rw [hE] at ih1
      simp only at ih1
      rcases arg with _ | f | c
      · simp [execCleanUp, hO, hE, unregister_nextId, ih1]
      · simp [execCleanUp, hO, hE, unregister_nextId, ih1]
      · rcases c with _ | cb2
        · simp [execCleanUp, hO, hE, unregister_nextId, ih1]
        · rcases hE2 : execCleanUp hk s1 with ⟨s2, hacts2⟩
          have ih2 := execCleanUp_nextId hk s1
          rw [hE2] at ih2
          simp only at ih2
          simp [execCleanUp, hO, hE, hE2, unregister_nextId, ih1, ih2]

/-- C9: for every sequence of registrations against one ledger, the returned
ids are assigned at registration time (each `run` call returns the value of
`nextId` at the moment of the call and strictly increases the counter),
strictly monotonically increasing and hence unique across the sequence, every
returned id stays below the ledger's final counter value, and no cancellation
path (`unregister`, ledger-level `cleanUp`, or a handle's `cleanUp` closure)
ever changes the counter — so an id is never reused, including after its
registration is cancelled. -/
theorem C9_effect_ids :
    (∀ (input : ObsOrSub) (arg : SideEffectArg) (opts : Option RunOptionsArg)
      (s : LedgerState),
      refId (run input arg opts s).2.1 = s.nextId ∧
      s.nextId < ((run input arg opts s).1).nextId) ∧
    (∀ (s : LedgerState) (reqs : List RunReq),
      List.Pairwise (· < ·) ((runAll s reqs).2) ∧
      ∀ i ∈ (runAll s reqs).2, i < ((runAll s reqs).1).nextId) ∧
    (∀ (eid : Nat) (s : LedgerState), (unregister eid s).nextId = s.nextId) ∧
    (∀ s : LedgerState, ((cleanUp s).1).nextId = s.nextId) ∧
    (∀ (ref : EffectCleanUpRef) (s : LedgerState),
      ((execCleanUp ref s).1).nextId = s.nextId) := by
  refine ⟨run_nextId_facts, fun s reqs => ?_, unregister_nextId,
    fun s => rfl, execCleanUp_nextId⟩
  obtain ⟨hpw, hmem, _⟩ := runAll_facts reqs s
  exact ⟨hpw, fun i hi => (hmem i hi).2⟩

theorem C9_effect_ids_witness :
    List.Pairwise (· < ·) ((runAll (initialLedger false)
      [⟨ObsOrSub.observable 0, SideEffectArg.fn 1, some ⟨some 2⟩⟩,
       ⟨ObsOrSub.observable 3, SideEffectArg.noArg, none⟩]).2) ∧
    (0 : Nat) ∈ ((runAll (initialLedger false)
      [⟨ObsOrSub.observable 0, SideEffectArg.fn 1, some ⟨some 2⟩⟩,
       ⟨ObsOrSub.observable 3, SideEffectArg.noArg, none⟩]).2) ∧
    0 < ((runAll (initialLedger false)
      [⟨ObsOrSub.observable 0, SideEffectArg.fn 1, some ⟨some 2⟩⟩,
       ⟨ObsOrSub.observable 3, SideEffectArg.noArg, none⟩]).1).nextId :=
  ⟨(C9_effect_ids.2.1 (initialLedger false)
      [⟨ObsOrSub.observable 0, SideEffectArg.fn 1, some ⟨some 2⟩⟩,
       ⟨ObsOrSub.observable 3, SideEffectArg.noArg, none⟩]).1,
    by decide,
    (C9_effect_ids.2.1 (initialLedger false)
      [⟨ObsOrSub.observable 0, SideEffectArg.fn 1, some ⟨some 2⟩⟩,
       ⟨ObsOrSub.observable 3, SideEffectArg.noArg, none⟩]).2 0 (by decide)⟩

/-- C10: registering an end-of-life callback via `runOnInstanceDestroy` after
the ledger-level `cleanUp()` has already run invokes the callback immediately
and synchronously at registration time — the single-slot `ReplaySubject`
replays the fired end-of-life notification to the late subscriber — rather
than never invoking it; and the late hook's own subscription is closed on the
spot (it was added to the already-closed parent), so nothing re-delivers to
it later. -/
theorem C10_late_hook_replay (s : LedgerState) (f : Nat) :
    (runOnInstanceDestroy (some f) (cleanUp s).1).2.2 = [Action.cleanUpCb f] ∧
    ((((runOnInstanceDestroy (some f) (cleanUp s).1).1).subs.get?
        (((cleanUp s).1).subs.length)).map (·.closed)) = some true := by
  constructor
  · rfl
  · show ((closeAt (((cleanUp s).1).subs.length)
        (((cleanUp s).1).subs ++ [⟨false, SubKind.hookPipe (some f)⟩])).get?
        (((cleanUp s).1).subs.length)).map (·.closed) = some true
    rw [closeAt_get?, if_pos rfl, List.get?_concat_length]
    rfl

end AngularKitEffects
